import Mathlib

/-!
Shallow embedding of the GRBL-HAL host controller core (gbrl-rs) and proofs
about its specification claims.

Modelling conventions:
* Rust `&str`/`String` values are modelled as Lean `String`s; all character
  processing happens on the underlying `List Char`.  The embedding is faithful
  on ASCII input (byte indices and char indices coincide there; Rust's
  Unicode-aware `trim`/`to_uppercase` agree with the ASCII versions used here).
* Rust `f64` values are modelled as exact rationals (the type `Q` below,
  a normalized numerator/denominator pair with computable, kernel-reducible
  arithmetic).  The decimal parser follows the grammar of `f64::from_str` for
  finite decimal numbers (sign, digits, optional fraction, optional
  exponent); the special forms `inf`/`nan` and IEEE-754 rounding/overflow
  are outside the model.
* Rust `u8`/`u32` parsing is modelled by a bounded decimal parser.
* `std::time::Instant` timestamps are opaque; they are modelled as `Nat`.
-/

namespace GrblRs

/-- Exact rational numbers: numerator and positive denominator, kept
gcd-normalized by the smart constructor `Q.norm`, so that structural equality
is value equality for all values the embedding produces. -/
structure Q where
  num : Int
  den : Nat
deriving DecidableEq

/-- Normalizing constructor: divide out the gcd (a zero denominator, which
the embedding never produces, is mapped to 0). -/
def Q.norm (n : Int) (d : Nat) : Q :=
  if d = 0 then ⟨0, 1⟩
  else
    let g := n.natAbs.gcd d
    ⟨n / (g : Int), d / g⟩

def Q.add (a b : Q) : Q := Q.norm (a.num * b.den + b.num * a.den) (a.den * b.den)

def Q.neg (a : Q) : Q := ⟨-a.num, a.den⟩

def Q.sub (a b : Q) : Q := Q.add a (Q.neg b)

def Q.mul (a b : Q) : Q := Q.norm (a.num * b.num) (a.den * b.den)

def Q.div (a b : Q) : Q :=
  if b.num < 0 then Q.norm (-(a.num * b.den)) (a.den * b.num.natAbs)
  else Q.norm (a.num * b.den) (a.den * b.num.natAbs)

/-- Order by cross-multiplication (denominators are positive). -/
def Q.le (a b : Q) : Prop := a.num * b.den ≤ b.num * a.den

def Q.lt (a b : Q) : Prop := a.num * b.den < b.num * a.den

instance : LE Q := ⟨Q.le⟩

instance : LT Q := ⟨Q.lt⟩

instance : Add Q := ⟨Q.add⟩

instance : Sub Q := ⟨Q.sub⟩

instance : Neg Q := ⟨Q.neg⟩

instance : Mul Q := ⟨Q.mul⟩

instance : Div Q := ⟨Q.div⟩

instance (n : Nat) : OfNat Q n := ⟨⟨n, 1⟩⟩

instance (a b : Q) : Decidable (a ≤ b) :=
  inferInstanceAs (Decidable (a.num * b.den ≤ b.num * a.den))

instance (a b : Q) : Decidable (a < b) :=
  inferInstanceAs (Decidable (a.num * b.den < b.num * a.den))

/-- `10 ^ k` as a `Q`. -/
def Q.pow10 (k : Nat) : Q := ⟨(10 : Int) ^ k, 1⟩

/-- ASCII whitespace, modelling Rust whitespace trimming on ASCII input. -/
def isWs (c : Char) : Bool :=
  c == ' ' || c == '\t' || c == '\n' || c == '\r'

/-- Rust `str::trim` on the character list. -/
def trimChars (l : List Char) : List Char :=
  ((l.dropWhile isWs).reverse.dropWhile isWs).reverse

/-- Rust `str::trim` at the `String` level. -/
def trimStr (s : String) : String := ⟨trimChars s.data⟩

/-- `isPfxOf p l` is Rust `l.starts_with(p)`. -/
def isPfxOf : List Char → List Char → Bool
  | [], _ => true
  | _ :: _, [] => false
  | p :: ps, c :: cs => p == c && isPfxOf ps cs

/-- `stripPfx p l` is Rust `l.strip_prefix(p)`. -/
def stripPfx : List Char → List Char → Option (List Char)
  | [], l => some l
  | _ :: _, [] => none
  | p :: ps, c :: cs => if p == c then stripPfx ps cs else none

/-- Rust `l.strip_suffix(c)` for a single character. -/
def stripSfx (c : Char) (l : List Char) : Option (List Char) :=
  match l.reverse with
  | [] => none
  | d :: rest => if d == c then some rest.reverse else none

/-- Substring containment, Rust `str::contains` with a literal pattern. -/
def containsSub (pat : List Char) : List Char → Bool
  | [] => isPfxOf pat []
  | c :: rest => isPfxOf pat (c :: rest) || containsSub pat rest

/-- Splitting on a separator character, Rust `str::split(sep)`:
always yields at least one (possibly empty) field. -/
def splitOnCharAux (sep : Char) : List Char → List Char → List (List Char)
  | [], acc => [acc.reverse]
  | c :: rest, acc =>
    if c == sep then acc.reverse :: splitOnCharAux sep rest []
    else splitOnCharAux sep rest (c :: acc)

/-- Rust `str::split(sep)` for a character separator. -/
def splitOnChar (sep : Char) (l : List Char) : List (List Char) :=
  splitOnCharAux sep l []

/-- Rust `str::split_once('=')`: split at the first `=`, if any. -/
def splitAtEq : List Char → Option (List Char × List Char)
  | [] => none
  | c :: rest =>
    if c == '=' then some ([], rest)
    else match splitAtEq rest with
      | some (a, b) => some (c :: a, b)
      | none => none

/-- Rust `str::find(':')` combined with the slicing done by `parse_state`:
the part before the first `:` and, when a `:` exists, the part after it. -/
def splitAtColon : List Char → List Char × Option (List Char)
  | [] => ([], none)
  | c :: rest =>
    if c == ':' then ([], some rest)
    else
      let p := splitAtColon rest
      (c :: p.1, p.2)

/-- Rust `str::lines`: split on `\n`, drop a trailing empty segment, and strip
a `\r` that immediately preceded a `\n`. -/
def rustLinesAux : List Char → List Char → List (List Char)
  | [], acc => if acc == [] then [] else [acc.reverse]
  | c :: rest, acc =>
    if c == '\n' then
      (match acc with
       | '\r' :: a => a.reverse
       | a => a.reverse) :: rustLinesAux rest []
    else rustLinesAux rest (c :: acc)

/-- Rust `str::lines` on a character list. -/
def rustLines (l : List Char) : List (List Char) := rustLinesAux l []

/-- Decimal digit list value, most significant first. -/
def digitsVal (l : List Char) : Nat :=
  l.foldl (fun acc c => acc * 10 + (c.toNat - 48)) 0

/-- Rust unsigned-integer `from_str` with an inclusive upper bound
(255 for `u8`, 4294967295 for `u32`): optional `+`, then one or more ASCII
digits, and the value must fit the type. -/
def parseBoundedNat (bound : Nat) (l : List Char) : Option Nat :=
  let l := match l with
    | '+' :: r => r
    | r => r
  if l ≠ [] ∧ l.all Char.isDigit then
    let v := digitsVal l
    if v ≤ bound then some v else none
  else none

/-- Exponent digits (after the `e`/`E`) of a float literal: optional sign then
one or more digits, consuming the whole remainder. -/
def parseExpDigits (l : List Char) : Option Int :=
  match l with
  | '+' :: r => if r ≠ [] ∧ r.all Char.isDigit then some (digitsVal r) else none
  | '-' :: r => if r ≠ [] ∧ r.all Char.isDigit then some (-(digitsVal r : Int)) else none
  | r => if r ≠ [] ∧ r.all Char.isDigit then some (digitsVal r) else none

/-- Optional exponent part of a float literal.  An empty remainder means
exponent 0; anything other than a complete `e`/`E` exponent is a parse error. -/
def parseExpPart (l : List Char) : Option Int :=
  match l with
  | [] => some 0
  | 'e' :: r => parseExpDigits r
  | 'E' :: r => parseExpDigits r
  | _ => none

/-- `10 ^ e` as a rational, for an integer exponent. -/
def qpow10 (e : Int) : Q :=
  if 0 ≤ e then Q.pow10 e.toNat else Q.div 1 (Q.pow10 (-e).toNat)

/-- Rust `f64::from_str` on finite decimal literals, giving the exact value as
a rational: `Sign? (Digits '.'? Digits? Exp? | '.' Digits Exp?)`.
The special values `inf`/`infinity`/`nan` are outside the model. -/
def parseF64Chars (l : List Char) : Option Q :=
  let sl : Q × List Char :=
    match l with
    | '+' :: r => (1, r)
    | '-' :: r => (Q.neg 1, r)
    | r => (1, r)
  let sign := sl.1
  let body := sl.2
  let intD := body.takeWhile Char.isDigit
  let r1 := body.dropWhile Char.isDigit
  match r1 with
  | '.' :: r2 =>
    let fracD := r2.takeWhile Char.isDigit
    let r3 := r2.dropWhile Char.isDigit
    if intD = [] ∧ fracD = [] then none
    else
      match parseExpPart r3 with
      | none => none
      | some e =>
        some (sign * (⟨(digitsVal intD * 10 ^ fracD.length + digitsVal fracD : Nat), 1⟩ : Q)
          / Q.pow10 fracD.length * qpow10 e)
  | _ =>
    if intD = [] then none
    else
      match parseExpPart r1 with
      | none => none
      | some e => some (sign * (⟨(digitsVal intD : Nat), 1⟩ : Q) * qpow10 e)

/-- Rust `f64::from_str` at the `String` level. -/
def parseF64 (s : String) : Option Q := parseF64Chars s.data

/-- Decimal digits of a natural number (fuel-based helper). -/
def natReprAux : Nat → Nat → List Char → List Char
  | 0, _, acc => acc
  | fuel + 1, n, acc =>
    if n = 0 then acc
    else natReprAux fuel (n / 10) (Char.ofNat (n % 10 + 48) :: acc)

/-- Decimal representation of a natural number. -/
def natRepr (n : Nat) : List Char :=
  if n = 0 then ['0'] else natReprAux (n + 1) n []

/-- Fractional part padded to exactly four digits. -/
def pad4 (m : Nat) : List Char :=
  let d := natRepr m
  List.replicate (4 - d.length) '0' ++ d

/-- Rust `format!("{:.4}", x)`: round the magnitude to four fractional digits
and print sign, integer part, `.`, and exactly four digits.  Rounding is
half-away-from-zero on the exact rational; this agrees with Rust's
half-to-even on the binary value everywhere a binary double is not exactly
half-way at the fourth decimal (no double ever is). -/
def fmt4 (q : Q) : List Char :=
  let mag : Q := if q < 0 then -q else q
  let r : Q := mag * 10000 + Q.norm 1 2
  let n : Nat := r.num.toNat / r.den
  (if q < 0 then ['-'] else []) ++ natRepr (n / 10000) ++ '.' :: pad4 (n % 10000)

/-! ## motion.rs — bed extension Y-axis translation -/

/-- src/machines/grbl/motion.rs: `DEFAULT_GANTRY_Y_LIMIT_MM` (609.6 mm). -/
def DEFAULT_GANTRY_Y_LIMIT_MM : Q := Q.norm 6096 10

/-- src/machines/grbl/motion.rs: `MotionConfig`. -/
structure MotionConfig where
  gantry_y_limit_mm : Q
  bed_axis : Char
deriving DecidableEq

/-- src/machines/grbl/motion.rs: `impl Default for MotionConfig`. -/
def MotionConfig.default : MotionConfig :=
  { gantry_y_limit_mm := DEFAULT_GANTRY_Y_LIMIT_MM, bed_axis := 'A' }

/-- Characters that continue the numeric span in `parse_axis_value` and
`replace_y_in_line`: ASCII digits, `.`, and `-`. -/
def axisSpanChar (c : Char) : Bool :=
  c.isDigit || c == '.' || c == '-'

/-- Scanning loop of `parse_axis_value`: at the first occurrence of the axis
letter (either case), take the span of digit/`.`/`-` characters after it,
trim it and parse it; no later occurrence is tried. -/
def parseAxisValueAux (upper lower : Char) : List Char → Option Q
  | [] => none
  | c :: rest =>
    if c == upper || c == lower then
      parseF64Chars (trimChars (rest.takeWhile axisSpanChar))
    else parseAxisValueAux upper lower rest

/-- src/machines/grbl/motion.rs: `parse_axis_value`. -/
def parse_axis_value (line : String) (axis : Char) : Option Q :=
  parseAxisValueAux axis.toUpper axis.toLower line.data

/-- Characters allowed directly after `G0`/`G1` for it to count as a move
token: end of line, blank, or one of `X Y Z F A` in either case. -/
def moveFollower (c : Char) : Bool :=
  c == ' ' || c == '\t' ||
  c == 'X' || c == 'x' || c == 'Y' || c == 'y' ||
  c == 'Z' || c == 'z' || c == 'F' || c == 'f' ||
  c == 'A' || c == 'a'

/-- Scanning loop of `is_move_line`: search every position for `G0`/`G1`
followed by end, blank, or an axis/feed letter. -/
def isMoveScan : List Char → Bool
  | [] => false
  | [_] => false
  | 'G' :: d :: rest =>
    if (d == '0' || d == '1')
        && (match rest with
            | [] => true
            | r :: _ => moveFollower r) then true
    else isMoveScan (d :: rest)
  | _ :: d :: rest => isMoveScan (d :: rest)

/-- `is_move_line` on an (already trimmed or raw) character list. -/
def isMoveLineChars (l : List Char) : Bool :=
  let t := trimChars l
  match t with
  | ';' :: _ => false
  | t' => isMoveScan t'

/-- src/machines/grbl/motion.rs: `is_move_line`. -/
def is_move_line (line : String) : Bool := isMoveLineChars line.data

/-- Scanning loop of `replace_y_in_line`: on a `Y`/`y` followed by `-`, `.`,
or a digit, keep the letter, skip the numeric span, and splice in the new
value; all such occurrences are replaced.  The fuel argument only forces
structural termination; every step consumes at least one character, so with
fuel equal to the list length the fuel never runs out. -/
def replaceYFuel (newY : List Char) : Nat → List Char → List Char
  | _, [] => []
  | 0, l => l
  | _ + 1, [c] => [c]
  | fuel + 1, c :: n :: rest =>
    if (c == 'Y' || c == 'y') && (n == '-' || n == '.' || n.isDigit) then
      c :: (newY ++ replaceYFuel newY fuel ((n :: rest).dropWhile axisSpanChar))
    else c :: replaceYFuel newY fuel (n :: rest)

/-- `replace_y_in_line`'s scan over a character list. -/
def replaceYAux (newY : List Char) (l : List Char) : List Char :=
  replaceYFuel newY l.length l

/-- src/machines/grbl/motion.rs: `replace_y_in_line`. -/
def replace_y_in_line (line : String) (new_y : Q) : String :=
  ⟨replaceYAux (fmt4 new_y) line.data⟩

/-- src/machines/grbl/motion.rs: `bed_axis_line`. -/
def bed_axis_line (config : MotionConfig) (distance_mm : Q) (feed : Option Q) : String :=
  ⟨('G' :: '1' :: ' ' :: config.bed_axis.toUpper :: fmt4 distance_mm)
    ++ (match feed with
        | some f => ' ' :: 'F' :: fmt4 f
        | none => [])⟩

/-- src/machines/grbl/motion.rs: `TranslateState` (modal mode and current Y). -/
structure TranslateState where
  absolute : Bool
  current_y_mm : Q
deriving DecidableEq

/-- Modal G90/G91 update done at the top of the translation loop:
`absolute` is set on a `G90` substring, then cleared on a `G91` substring. -/
def updateAbs (absolute : Bool) (t : List Char) : Bool :=
  let a1 := if containsSub "G90".data t || containsSub "g90".data t then true else absolute
  if containsSub "G91".data t || containsSub "g91".data t then false else a1

/-- One iteration of the `translate_lines` loop: the next state and the lines
emitted for this input line. -/
def translateStep (config : MotionConfig) (st : TranslateState) (line : String) :
    TranslateState × List String :=
  let t := trimChars line.data
  if t = [] || (match t with | ';' :: _ => true | _ => false) then
    (st, [(⟨t⟩ : String)])
  else
    let a2 := updateAbs st.absolute t
    if ¬ isMoveLineChars t then
      ({ absolute := a2, current_y_mm := st.current_y_mm }, [(⟨t⟩ : String)])
    else
      match parseAxisValueAux 'Y' 'y' t with
      | none => ({ absolute := a2, current_y_mm := st.current_y_mm }, [(⟨t⟩ : String)])
      | some y =>
        let feed := parseAxisValueAux 'F' 'f' t
        let target := if a2 then y else st.current_y_mm + y
        if target ≤ config.gantry_y_limit_mm then
          ({ absolute := a2, current_y_mm := target }, [(⟨t⟩ : String)])
        else
          let toLimit := config.gantry_y_limit_mm - st.current_y_mm
          let overflow := target - config.gantry_y_limit_mm
          let firstLines :=
            if 0 < toLimit then
              [(⟨replaceYAux (fmt4 (if a2 then config.gantry_y_limit_mm else toLimit)) t⟩ : String)]
            else []
          ({ absolute := a2, current_y_mm := target },
            firstLines ++ [bed_axis_line config overflow feed])

/-- The `translate_lines` loop over the remaining input. -/
def translateGo (config : MotionConfig) (st : TranslateState) : List String → List String
  | [] => []
  | l :: ls =>
    let p := translateStep config st l
    p.2 ++ translateGo config p.1 ls

/-- src/machines/grbl/motion.rs: `translate_lines`. -/
def translate_lines (lines : List String) (config : MotionConfig) : List String :=
  translateGo config { absolute := true, current_y_mm := 0 } lines

/-! ## state.rs — machine state types -/

/-- src/machines/grbl/state.rs: `Position` (x, y, z and optional rotary A). -/
structure Position where
  x : Q
  y : Q
  z : Q
  a : Option Q
deriving DecidableEq

/-- src/machines/grbl/state.rs: `HoldReason`. -/
inductive HoldReason where
  | FeedHold
  | SafetyDoor
  | Other : String → HoldReason
deriving DecidableEq

/-- src/machines/grbl/state.rs: `AlarmCode` (codes 1–21 plus `Unknown`).
The `u8` payload is modelled as `Nat`. -/
inductive AlarmCode where
  | HardLimit
  | SoftLimit
  | AbortCycle
  | ProbeFailInitial
  | ProbeFailContact
  | HomingFailReset
  | HomingFailDoor
  | FailPulloff
  | HomingFailApproach
  | EStop
  | HomingRequired
  | LimitsEngaged
  | ProbeProtect
  | Spindle
  | HomingFailAutoSquaringApproach
  | SelftestFailed
  | MotorFault
  | HomingFail
  | ModbusException
  | ExpanderException
  | NvsFailed
  | Unknown : Nat → AlarmCode
deriving DecidableEq

/-- src/machines/grbl/state.rs: `impl From<u8> for AlarmCode`. -/
def AlarmCode.ofU8 (n : Nat) : AlarmCode :=
  match n with
  | 1 => .HardLimit
  | 2 => .SoftLimit
  | 3 => .AbortCycle
  | 4 => .ProbeFailInitial
  | 5 => .ProbeFailContact
  | 6 => .HomingFailReset
  | 7 => .HomingFailDoor
  | 8 => .FailPulloff
  | 9 => .HomingFailApproach
  | 10 => .EStop
  | 11 => .HomingRequired
  | 12 => .LimitsEngaged
  | 13 => .ProbeProtect
  | 14 => .Spindle
  | 15 => .HomingFailAutoSquaringApproach
  | 16 => .SelftestFailed
  | 17 => .MotorFault
  | 18 => .HomingFail
  | 19 => .ModbusException
  | 20 => .ExpanderException
  | 21 => .NvsFailed
  | _ => .Unknown n

/-- `true` for the 21 named alarm variants, `false` for `Unknown`. -/
def AlarmCode.isNamed : AlarmCode → Bool
  | .Unknown _ => false
  | _ => true

/-- src/machines/grbl/state.rs: `PinState`. -/
structure PinState where
  limit_x : Bool
  limit_y : Bool
  limit_z : Bool
  probe : Bool
deriving DecidableEq

/-- `PinState::default()`: all pins false. -/
def PinState.default : PinState := ⟨false, false, false, false⟩

/-- src/machines/grbl/state.rs: `MachineState`. -/
inductive MachineState where
  | Idle
  | Run
  | Hold : HoldReason → MachineState
  | Jog
  | Alarm : AlarmCode → MachineState
  | Door
  | Check
  | Home
  | Sleep
  | Unknown : String → MachineState
deriving DecidableEq

/-- src/machines/grbl/state.rs: `MachineStatus`.  `last_updated` is the
opaque caller-supplied receive timestamp. -/
structure MachineStatus where
  state : MachineState
  machine_pos : Position
  work_pos : Position
  feed_rate : Q
  spindle_speed : Q
  input_pins : PinState
  last_updated : Nat
deriving DecidableEq

/-! ## commands.rs — typed commands and rendering -/

/-- src/machines/grbl/commands.rs: `GrblCommand`.  The `u8` fields are
modelled as `Nat`. -/
inductive GrblCommand where
  | StatusRequest
  | SettingsRequest
  | Home
  | Unlock
  | Jog : String → GrblCommand
  | ProbeCycle : String → GrblCommand
  | SetWcsZero : Nat → Q → Q → Q → GrblCommand
  | ActivateWcs : Nat → GrblCommand
  | GcodeLine : String → GrblCommand
deriving DecidableEq

/-- Decimal digits of an integer. -/
def intRepr (n : Int) : List Char :=
  if n < 0 then '-' :: natRepr n.natAbs else natRepr n.natAbs

/-- Rust `{}` display of an `f64`, on the exact-rational model: integers
print without a decimal point; non-integral values print the shortest exact
decimal expansion (every value the embedding produces has one). -/
def displayQ (q : Q) : List Char :=
  if q.den = 1 then intRepr q.num
  else
    match (List.range 64).find? (fun k => 10 ^ k % q.den = 0) with
    | some k =>
      let scaled := q.num.natAbs * (10 ^ k / q.den)
      let frac := scaled % 10 ^ k
      let fracDigits := natRepr frac
      (if q.num < 0 then ['-'] else []) ++ natRepr (scaled / 10 ^ k)
        ++ '.' :: ((List.replicate (k - fracDigits.length) '0' ++ fracDigits).reverse.dropWhile (fun c => c == '0')).reverse
    | none => intRepr q.num ++ '/' :: natRepr q.den

/-- src/machines/grbl/commands.rs: `impl fmt::Display for GrblCommand`. -/
def renderCommand : GrblCommand → String
  | .StatusRequest => "?"
  | .SettingsRequest => "$$"
  | .Home => "$H"
  | .Unlock => "$X"
  | .Jog gcode => ⟨"$J=".data ++ gcode.data⟩
  | .ProbeCycle line => line
  | .SetWcsZero p x y z =>
    ⟨"G10 L20 P".data ++ natRepr p ++ " X".data ++ displayQ x
      ++ " Y".data ++ displayQ y ++ " Z".data ++ displayQ z⟩
  | .ActivateWcs n =>
    match n with
    | 1 => "G54"
    | 2 => "G55"
    | 3 => "G56"
    | 4 => "G57"
    | 5 => "G58"
    | 6 => "G59"
    | 7 => "G59.1"
    | 8 => "G59.2"
    | 9 => "G59.3"
    | _ => "G59.3"
  | .GcodeLine line => line

/-- src/machines/grbl/commands.rs: `RealtimeCommand`. -/
inductive RealtimeCommand where
  | SoftReset
  | SafetyDoor
  | JogCancel
  | FeedOverride100
  | FeedOverridePlus10
  | FeedOverrideMinus10
deriving DecidableEq

/-- src/machines/grbl/commands.rs: `RealtimeCommand::as_byte`. -/
def RealtimeCommand.as_byte : RealtimeCommand → Nat
  | .SoftReset => 0x18
  | .SafetyDoor => 0x84
  | .JogCancel => 0x85
  | .FeedOverride100 => 0x90
  | .FeedOverridePlus10 => 0x91
  | .FeedOverrideMinus10 => 0x92

/-! ## parser.rs — pure parsing of GRBL-HAL responses -/

deriving instance DecidableEq for Except

/-- src/machines/grbl/parser.rs: `ParseError`. -/
inductive ParseError where
  | InvalidStatus : String → ParseError
  | InvalidPosition : String → ParseError
  | InvalidSettingsLine : String → ParseError
  | InvalidAlarm : String → ParseError
deriving DecidableEq

/-- The state token's base: the trimmed part before the first `:` of the
trimmed token (the scrutinee of `parse_state`'s match). -/
def stateBase (s : String) : List Char :=
  trimChars (splitAtColon (trimChars s.data)).1

/-- The state token's sub-token: the part after the first `:`, if any. -/
def stateSub (s : String) : Option (List Char) :=
  (splitAtColon (trimChars s.data)).2

/-- src/machines/grbl/parser.rs: `parse_state`.  Names the nine known
states; `Hold` always becomes `FeedHold`; `Alarm` parses its sub-token as
`u8` and defaults to `Unknown(0)`; anything else becomes `Unknown`. -/
def parse_state (s : String) : Except ParseError MachineState :=
  let t := trimChars s.data
  let base := trimChars (splitAtColon t).1
  let rest := (splitAtColon t).2
  if base = "Idle".data then .ok .Idle
  else if base = "Run".data then .ok .Run
  else if base = "Hold".data then
    .ok (.Hold ((((rest.bind (fun r => parseBoundedNat 255 (trimChars r))).map
      (fun _ => HoldReason.FeedHold)).getD HoldReason.FeedHold)))
  else if base = "Jog".data then .ok .Jog
  else if base = "Alarm".data then
    .ok (.Alarm ((((rest.bind (fun r => parseBoundedNat 255 (trimChars r))).map
      AlarmCode.ofU8).getD (AlarmCode.Unknown 0))))
  else if base = "Door".data then .ok .Door
  else if base = "Check".data then .ok .Check
  else if base = "Home".data then .ok .Home
  else if base = "Sleep".data then .ok .Sleep
  else .ok (.Unknown ⟨t⟩)

/-- src/machines/grbl/parser.rs: `parse_position` (`x,y,z` or `x,y,z,a`). -/
def parse_position (s : List Char) : Except ParseError Position :=
  let ps := (splitOnChar ',' s).map trimChars
  if ps.length < 3 then
    .error (.InvalidPosition ⟨"expected at least x,y,z, got: ".data ++ s⟩)
  else
    match parseF64Chars (ps.getD 0 []), parseF64Chars (ps.getD 1 []),
        parseF64Chars (ps.getD 2 []) with
    | some x, some y, some z =>
      .ok { x := x, y := y, z := z,
            a := match ps.get? 3 with
                 | some s3 => parseF64Chars s3
                 | none => none }
    | none, _, _ => .error (.InvalidPosition ⟨"invalid x: ".data ++ ps.getD 0 []⟩)
    | _, none, _ => .error (.InvalidPosition ⟨"invalid y: ".data ++ ps.getD 1 []⟩)
    | _, _, none => .error (.InvalidPosition ⟨"invalid z: ".data ++ ps.getD 2 []⟩)

/-- src/machines/grbl/parser.rs: `parse_fs` (`feed,spindle`): at least two
comma-separated fields are required and the first two must parse. -/
def parse_fs (s : List Char) : Except ParseError (Q × Q) :=
  let ps := (splitOnChar ',' s).map trimChars
  if ps.length < 2 then
    .error (.InvalidStatus ⟨"FS expected feed,spindle: ".data ++ s⟩)
  else
    match parseF64Chars (ps.getD 0 []), parseF64Chars (ps.getD 1 []) with
    | some feed, some spindle => .ok (feed, spindle)
    | none, _ => .error (.InvalidStatus ⟨"invalid feed: ".data ++ ps.getD 0 []⟩)
    | _, none => .error (.InvalidStatus ⟨"invalid spindle: ".data ++ ps.getD 1 []⟩)

/-- The optional angle-bracket stripping at the top of `parse_status`.
Note the faithful Rust fallback: if stripping `>` fails, the result is the
original trimmed string (with a stripped `<` restored). -/
def stripAngle (s : List Char) : List Char :=
  let s1 := (stripPfx ['<'] s).getD s
  (stripSfx '>' s1).getD s

/-- The segment loop of `parse_status`: apply `MPos:`/`WPos:`/`FS:` segments
to the status under construction; unrecognized segments are ignored. -/
def applySegs : List (List Char) → MachineStatus → Except ParseError MachineStatus
  | [], st => .ok st
  | part :: rest, st =>
    let p := trimChars part
    match stripPfx "MPos:".data p with
    | some pos_str =>
      match parse_position pos_str with
      | .ok pp => applySegs rest { st with machine_pos := pp }
      | .error e => .error e
    | none =>
      match stripPfx "WPos:".data p with
      | some pos_str =>
        match parse_position pos_str with
        | .ok pp => applySegs rest { st with work_pos := pp }
        | .error e => .error e
      | none =>
        match stripPfx "FS:".data p with
        | some fs_str =>
          match parse_fs fs_str with
          | .ok fs => applySegs rest { st with feed_rate := fs.1, spindle_speed := fs.2 }
          | .error e => .error e
        | none => applySegs rest st

/-- src/machines/grbl/parser.rs: `parse_status`. -/
def parse_status (line : String) (last_updated : Nat) :
    Except ParseError MachineStatus :=
  let s := stripAngle (trimChars line.data)
  let parts := splitOnChar '|' s
  let state_token := trimChars (parts.headD [])
  if state_token = [] then .error (.InvalidStatus "empty status")
  else
    match parse_state ⟨state_token⟩ with
    | .error e => .error e
    | .ok state =>
      applySegs parts.tail
        { state := state,
          machine_pos := { x := 0, y := 0, z := 0, a := none },
          work_pos := { x := 0, y := 0, z := 0, a := none },
          feed_rate := 0, spindle_speed := 0,
          input_pins := PinState.default,
          last_updated := last_updated }

/-- src/machines/grbl/parser.rs: `parse_alarm_code`. -/
def parse_alarm_code (s : String) : Except ParseError AlarmCode :=
  let t := trimChars s.data
  let num := (((((stripPfx "ALARM:".data t).orElse
    (fun _ => stripPfx "ALARM: ".data t)).orElse
    (fun _ => stripPfx "error:".data t)).orElse
    (fun _ => stripPfx "error: ".data t)).map trimChars).getD t
  match parseBoundedNat 255 num with
  | some n => .ok (AlarmCode.ofU8 n)
  | none => .error (.InvalidAlarm ⟨t⟩)

/-- src/machines/grbl/parser.rs: `GrblSettings`.  The `HashMap<u32, String>`
is modelled as a function from setting number to optional value. -/
structure GrblSettings where
  raw : Nat → Option String

/-- `HashMap::insert`. -/
def insertRaw (m : Nat → Option String) (n : Nat) (v : String) :
    Nat → Option String :=
  fun k => if k = n then some v else m k

/-- The per-line analysis of `parse_settings`: trimmed lines that are empty
or a bare `ok` are skipped; a line `$N=VALUE` whose `N` parses as `u32`
yields `(N, VALUE.trim())`; anything else is silently skipped. -/
def settingOf (l : List Char) : Option (Nat × String) :=
  let t := trimChars l
  if t = [] ∨ t = "ok".data then none
  else
    match t with
    | '$' :: rest =>
      match splitAtEq rest with
      | some (numStr, value) =>
        (parseBoundedNat 4294967295 (trimChars numStr)).map
          (fun n => (n, (⟨trimChars value⟩ : String)))
      | none => none
    | _ => none

/-- The line loop of `parse_settings`, folding inserts left to right so that
a later duplicate wins. -/
def settingsFold : List (List Char) → (Nat → Option String) → (Nat → Option String)
  | [], m => m
  | l :: ls, m =>
    settingsFold ls (match settingOf l with
      | some nv => insertRaw m nv.1 nv.2
      | none => m)

/-- src/machines/grbl/parser.rs: `parse_settings`: tolerant parsing of a
`$$` response body; malformed lines are skipped and the result is always
`Ok`. -/
def parse_settings (s : String) : Except ParseError GrblSettings :=
  .ok ⟨settingsFold (rustLines s.data) (fun _ => none)⟩

/-! ## streamer.rs — line streaming with one-outstanding flow control -/

/-- src/machines/grbl/streamer.rs: `StreamResult`.  The `u32` counters are
modelled as `Nat` (they never approach the wrap-around in the model's use). -/
structure StreamResult where
  lines_sent : Nat
  lines_ok : Nat
  first_error : Option String
deriving DecidableEq

/-- src/machines/grbl/streamer.rs: `is_sendable_line` (non-empty after trim
and not a `;` comment). -/
def is_sendable_line (line : String) : Bool :=
  let t := trimChars line.data
  match t with
  | [] => false
  | c :: _ => !(c == ';')

/-- Rust `eq_ignore_ascii_case` for character lists. -/
def eqIgnoreAsciiCase (a b : List Char) : Bool :=
  a.map Char.toLower == b.map Char.toLower

/-- The states in which the streamer's pause loop keeps waiting. -/
def pausingState : MachineState → Bool
  | .Hold _ => true
  | .Door => true
  | _ => false

/-- The line loop of `stream_lines`, modelled purely: the shared status cell
is a constant machine state for the run, and the mock controller's responses
are consumed one per sent line.  `none` models a run that never completes
normally: either the pause loop spins forever on a pausing state, or the
responses are exhausted and the port read fails.  On an `ok` response the
loop continues; on an `error:`/`Error:` response the trimmed remainder is
recorded as `first_error` (if unset) and the stream stops; on any other
response the raw trimmed response is recorded and the stream stops. -/
def streamGo (pausing : Bool) :
    List String → List String → StreamResult → Option StreamResult
  | [], _, acc => some acc
  | l :: rest, resps, acc =>
    if !(is_sendable_line l) then streamGo pausing rest resps acc
    else if pausing then none
    else
      match resps with
      | [] => none
      | r :: rs =>
        let resp := trimChars r.data
        if eqIgnoreAsciiCase resp "ok".data then
          streamGo pausing rest rs
            { lines_sent := acc.lines_sent + 1, lines_ok := acc.lines_ok + 1,
              first_error := acc.first_error }
        else if isPfxOf "error:".data resp || isPfxOf "Error:".data resp then
          some { lines_sent := acc.lines_sent + 1, lines_ok := acc.lines_ok,
                 first_error := match acc.first_error with
                   | some e => some e
                   | none => some (⟨trimChars (resp.drop 6)⟩ : String) }
        else
          some { lines_sent := acc.lines_sent + 1, lines_ok := acc.lines_ok,
                 first_error := match acc.first_error with
                   | some e => some e
                   | none => some (⟨resp⟩ : String) }

/-- src/machines/grbl/streamer.rs: `stream_lines`, over a constant machine
state and a list of mock controller responses. -/
def stream_lines (state : MachineState) (lines : List String)
    (responses : List String) : Option StreamResult :=
  streamGo (pausingState state) lines responses ⟨0, 0, none⟩

/-! ## Claim-side specification definitions -/

/-- Spec side of C7: the exact strings the spec lists for `ActivateWcs`,
with `G59.3` for every value outside `1..=9`. -/
def activateWcsSpec (n : Nat) : String :=
  if n = 1 then "G54"
  else if n = 2 then "G55"
  else if n = 3 then "G56"
  else if n = 4 then "G57"
  else if n = 5 then "G58"
  else if n = 6 then "G59"
  else if n = 7 then "G59.1"
  else if n = 8 then "G59.2"
  else if n = 9 then "G59.3"
  else "G59.3"

/-- Spec side of C10: the value of setting `k` according to the claim — the
`(N, value)` of the last input line of the form `$N=V` (with `N` parsing as
`u32`) whose `N` is `k`, and nothing for other lines. -/
def lastSettingValue : List (List Char) → Nat → Option String
  | [], _ => none
  | l :: ls, k =>
    match lastSettingValue ls k with
    | some v => some v
    | none =>
      match settingOf l with
      | some nv => if nv.1 = k then some nv.2 else none
      | none => none

/-- Spec side of C5: a line is compliant for the current translator state
when it is skipped, is not a move line, has no Y value, or its Y target
(absolute or accumulated relative) stays within the gantry limit. -/
def lineCompliant (config : MotionConfig) (st : TranslateState) (line : String) : Bool :=
  let t := trimChars line.data
  if t = [] || (match t with | ';' :: _ => true | _ => false) then true
  else
    let a2 := updateAbs st.absolute t
    if ¬ isMoveLineChars t then true
    else
      match parseAxisValueAux 'Y' 'y' t with
      | none => true
      | some y =>
        decide ((if a2 then y else st.current_y_mm + y) ≤ config.gantry_y_limit_mm)

/-- Spec side of C5: every line of the sequence is compliant for the
translator state reached at that line. -/
def compliantFrom (config : MotionConfig) (st : TranslateState) : List String → Bool
  | [] => true
  | l :: ls =>
    lineCompliant config st l && compliantFrom config (translateStep config st l).1 ls

/-! ## Theorems for the claims -/

/-- C1: on input `["G90", "G1 Y700 F300"]` with the default `MotionConfig`
(gantry limit 609.6 mm, bed axis `A`), `translate_lines` returns exactly
`["G90", "G1 Y609.6000 F300", "G1 A90.4000 F300.0000"]`: the over-limit
absolute Y move is clamped to the limit with four fractional digits, and a
synthesized `G1 A` line carries the overflow with the feed appended as
`F` with four fractional digits. -/
theorem c1_translate_split_absolute :
    translate_lines ["G90", "G1 Y700 F300"] MotionConfig.default =
      ["G90", "G1 Y609.6000 F300", "G1 A90.4000 F300.0000"] := by
  decide

/-- Counterexample to C3 as stated: an `FS:` segment with three
comma-separated fields does not give `InvalidStatus`; `parse_status`
succeeds with feed 1 and spindle 2 (the third field is ignored). -/
theorem c3_three_fields_parse_ok :
    parse_status "Idle|FS:1,2,3" 0 =
      .ok { state := .Idle,
            machine_pos := { x := 0, y := 0, z := 0, a := none },
            work_pos := { x := 0, y := 0, z := 0, a := none },
            feed_rate := 1, spindle_speed := 2,
            input_pins := PinState.default, last_updated := 0 } := by
  decide

/-- C3 (amended): `parse_fs` requires at least two comma-separated fields
whose first two parse as numbers: fewer than two fields, or an unparseable
feed or spindle field, yields `ParseError::InvalidStatus`; additional
fields are ignored.  `parse_status` forwards the error, as the concrete
second conjunct shows. -/
theorem c3_fs_at_least_two_fields :
    (∀ s : List Char,
      ((splitOnChar ',' s).map trimChars).length < 2 ∨
        parseF64Chars (((splitOnChar ',' s).map trimChars).getD 0 []) = none ∨
        parseF64Chars (((splitOnChar ',' s).map trimChars).getD 1 []) = none →
      ∃ m, parse_fs s = .error (.InvalidStatus m)) ∧
    (∃ m, parse_status "Idle|FS:5" 0 = .error (.InvalidStatus m)) := by
  constructor
  · intro s h
    simp only [parse_fs]
    split
    · exact ⟨_, rfl⟩
    · rename_i hlen
      rcases hx : parseF64Chars (((splitOnChar ',' s).map trimChars).getD 0 []) with _ | x
      · simp only [hx]
        exact ⟨_, rfl⟩
      · rcases hy : parseF64Chars (((splitOnChar ',' s).map trimChars).getD 1 []) with _ | y
        · simp only [hx, hy]
          exact ⟨_, rfl⟩
        · rcases h with h | h | h
          · exact absurd h hlen
          · rw [hx] at h
            exact absurd h (by simp)
          · rw [hy] at h
            exact absurd h (by simp)
  · exact ⟨"FS expected feed,spindle: 5", by decide⟩

/-- Witness for C3's amended theorem at the concrete segment `1,bad`. -/
theorem c3_fs_witness :
    ∃ m, parse_fs "1,bad".data = .error (.InvalidStatus m) :=
  c3_fs_at_least_two_fields.1 "1,bad".data (by decide)

set_option maxRecDepth 4000 in
/-- C6: `AlarmCode::from` is total on bytes, giving a named variant exactly
for 1..=21 and `Unknown(n)` for 0 and 22..=255, and for 1..=21 parsing
`"ALARM:n"` round-trips to the same variant. -/
theorem c6_alarm_code_total_roundtrip :
    ∀ n : Nat, n < 256 →
      ((1 ≤ n ∧ n ≤ 21) → (AlarmCode.ofU8 n).isNamed = true) ∧
      ((n = 0 ∨ 22 ≤ n) → AlarmCode.ofU8 n = .Unknown n) ∧
      ((1 ≤ n ∧ n ≤ 21) →
        parse_alarm_code ⟨"ALARM:".data ++ natRepr n⟩ = .ok (AlarmCode.ofU8 n)) := by
  decide

/-- Witness for C6 at n = 21 (named, round-trips) and n = 22 (Unknown). -/
theorem c6_alarm_code_witness :
    (AlarmCode.ofU8 21).isNamed = true ∧
    AlarmCode.ofU8 22 = .Unknown 22 ∧
    parse_alarm_code ⟨"ALARM:".data ++ natRepr 21⟩ = .ok (AlarmCode.ofU8 21) :=
  ⟨(c6_alarm_code_total_roundtrip 21 (by decide)).1 (by decide),
   (c6_alarm_code_total_roundtrip 22 (by decide)).2.1 (by decide),
   (c6_alarm_code_total_roundtrip 21 (by decide)).2.2 (by decide)⟩

set_option maxRecDepth 4000 in
/-- C7: rendering `ActivateWcs(n)` gives `G54`..`G59.3` for n = 1..9 and
falls back to `G59.3` for every other byte value. -/
theorem c7_activate_wcs_rendering :
    ∀ n : Nat, n < 256 → renderCommand (.ActivateWcs n) = activateWcsSpec n := by
  decide

/-- Witness for C7 at n = 7 (`G59.1`) and n = 200 (fallback `G59.3`). -/
theorem c7_activate_wcs_witness :
    renderCommand (.ActivateWcs 7) = activateWcsSpec 7 ∧
    renderCommand (.ActivateWcs 200) = activateWcsSpec 200 :=
  ⟨c7_activate_wcs_rendering 7 (by decide),
   c7_activate_wcs_rendering 200 (by decide)⟩

theorem streamGo_step_ok (l : String) (hl : is_sendable_line l = true)
    (rest resps : List String) (acc : StreamResult) :
    streamGo false (l :: rest) ("ok" :: resps) acc =
      streamGo false rest resps
        { lines_sent := acc.lines_sent + 1, lines_ok := acc.lines_ok + 1,
          first_error := acc.first_error } := by
  have hok : eqIgnoreAsciiCase (trimChars "ok".data) "ok".data = true := by decide
  simp [streamGo, hl, hok]

theorem streamGo_step_err22 (l : String) (hl : is_sendable_line l = true)
    (rest resps : List String) (acc : StreamResult)
    (hfe : acc.first_error = none) :
    streamGo false (l :: rest) ("error:22" :: resps) acc =
      some { lines_sent := acc.lines_sent + 1, lines_ok := acc.lines_ok,
             first_error := some "22" } := by
  have hok : eqIgnoreAsciiCase (trimChars "error:22".data) "ok".data = false := by decide
  have herr : isPfxOf "error:".data (trimChars "error:22".data) = true := by decide
  simp [streamGo, hl, hok, herr, hfe]
  decide

/-- C2: for every sequence of sendable lines (at least three of them) and a
non-pausing machine state, streaming against controller responses
`ok, ok, error:22` gives `lines_sent = 3`, `lines_ok = 2` and
`first_error = Some "22")`: the case-insensitive `ok` responses count and
streaming continues, and the `error:`-prefixed response records the trimmed
remainder and stops the stream. -/
theorem c2_stream_flow_control :
    ∀ st : MachineState, pausingState st = false →
    ∀ lines : List String, (∀ l ∈ lines, is_sendable_line l = true) →
    3 ≤ lines.length →
    ∀ rest : List String,
      stream_lines st lines (["ok", "ok", "error:22"] ++ rest) =
        some { lines_sent := 3, lines_ok := 2, first_error := some "22" } := by
  intro st hp lines hs h3 rest
  match lines with
  | a :: b :: c :: ds =>
    have ha : is_sendable_line a = true := hs a (by simp)
    have hb : is_sendable_line b = true := hs b (by simp)
    have hc : is_sendable_line c = true := hs c (by simp)
    unfold stream_lines
    rw [hp, List.cons_append, List.cons_append, List.cons_append,
      List.nil_append, streamGo_step_ok a ha, streamGo_step_ok b hb,
      streamGo_step_err22 c hc _ _ _ rfl]

/-- Witness for C2: three concrete sendable lines in state `Idle`. -/
theorem c2_stream_witness :
    stream_lines .Idle ["G1 X10", "G1 X20", "G1 X30"] (["ok", "ok", "error:22"] ++ []) =
      some { lines_sent := 3, lines_ok := 2, first_error := some "22" } :=
  c2_stream_flow_control .Idle (by decide) ["G1 X10", "G1 X20", "G1 X30"]
    (by decide) (by decide) []

/-- C9: a state token whose base is `Alarm` but whose sub-token is absent or
does not parse as a `u8` parses successfully to `Alarm(Unknown(0))`, and any
token with base `Hold` parses to `Hold(FeedHold)` regardless of sub-token;
`parse_status` succeeds on such a line, as the concrete conjunct shows. -/
theorem c9_lenient_state_subtokens :
    (∀ s : String, stateBase s = "Alarm".data →
      (stateSub s).bind (fun r => parseBoundedNat 255 (trimChars r)) = none →
      parse_state s = .ok (.Alarm (.Unknown 0))) ∧
    (∀ s : String, stateBase s = "Hold".data →
      parse_state s = .ok (.Hold .FeedHold)) ∧
    parse_status "Alarm:xyz|MPos:1,2,3|WPos:0,0,0|FS:0,0" 0 =
      .ok { state := .Alarm (.Unknown 0),
            machine_pos := { x := 1, y := 2, z := 3, a := none },
            work_pos := { x := 0, y := 0, z := 0, a := none },
            feed_rate := 0, spindle_speed := 0,
            input_pins := PinState.default, last_updated := 0 } := by
  refine ⟨?_, ?_, by decide⟩
  · intro s h1 h2
    simp only [stateBase] at h1
    simp only [stateSub] at h2
    simp only [parse_state]
    rw [h1]
    rw [if_neg (by decide), if_neg (by decide), if_neg (by decide),
      if_neg (by decide), if_pos rfl]
    rw [h2]
    rfl
  · intro s h1
    simp only [stateBase] at h1
    simp only [parse_state]
    rw [h1]
    rw [if_neg (by decide), if_neg (by decide), if_pos rfl]
    cases hrb : ((splitAtColon (trimChars s.data)).2.bind
        (fun r => parseBoundedNat 255 (trimChars r))) with
    | none => rfl
    | some v => rfl

/-- Witness for C9 at the concrete tokens `Alarm:xyz` and `Hold:7`. -/
theorem c9_lenient_state_witness :
    parse_state "Alarm:xyz" = .ok (.Alarm (.Unknown 0)) ∧
    parse_state "Hold:7" = .ok (.Hold .FeedHold) :=
  ⟨c9_lenient_state_subtokens.1 "Alarm:xyz" (by decide) (by decide),
   c9_lenient_state_subtokens.2.1 "Hold:7" (by decide)⟩

theorem settingsFold_lookup (ls : List (List Char)) (m : Nat → Option String)
    (k : Nat) :
    settingsFold ls m k =
      match lastSettingValue ls k with
      | some v => some v
      | none => m k := by
  induction ls generalizing m with
  | nil => rfl
  | cons l ls ih =>
    simp only [settingsFold, lastSettingValue]
    rw [ih]
    cases lastSettingValue ls k with
    | some v => rfl
    | none =>
      cases hso : settingOf l with
      | none => rfl
      | some nv =>
        simp only [insertRaw]
        by_cases hk : nv.1 = k
        · subst hk
          simp
        · rw [if_neg hk, if_neg (fun h => hk h.symm)]

/-- C10: `parse_settings` is total (always `Ok`, never
`InvalidSettingsLine`), and the resulting map holds exactly the settings of
lines of the form `$N=V` with `N` parsing as `u32` — the last such line
winning for duplicate `N`, the value stored trimmed, and every other line
leaving the map unaffected. -/
theorem c10_settings_total_lastwins :
    ∀ (s : String) (k : Nat),
      ∃ g, parse_settings s = .ok g ∧
        g.raw k = lastSettingValue (rustLines s.data) k := by
  intro s k
  refine ⟨_, rfl, ?_⟩
  show settingsFold (rustLines s.data) (fun _ => none) k = _
  rw [settingsFold_lookup]
  cases lastSettingValue (rustLines s.data) k with
  | some v => rfl
  | none => rfl

theorem spanChar_not_ws (d : Char) (hd : axisSpanChar d = true) : isWs d = false := by
  cases hw : isWs d with
  | false => rfl
  | true =>
    simp only [isWs, Bool.or_eq_true, beq_iff_eq] at hw
    rcases hw with ((rfl | rfl) | rfl) | rfl <;> exact absurd hd (by decide)

theorem dropWhile_not_ws (l : List Char) (h : ∀ d ∈ l, isWs d = false) :
    l.dropWhile isWs = l := by
  cases l with
  | nil => rfl
  | cons c t => simp [List.dropWhile_cons, h c (by simp)]

theorem trimChars_eq_self (l : List Char) (h : ∀ d ∈ l, isWs d = false) :
    trimChars l = l := by
  unfold trimChars
  rw [dropWhile_not_ws l h,
    dropWhile_not_ws l.reverse (fun d hd => h d (List.mem_reverse.mp hd)),
    List.reverse_reverse]

theorem takeWhile_span (num rest : List Char)
    (hnum : ∀ d ∈ num, axisSpanChar d = true)
    (hrest : rest = [] ∨ ∃ d tl, rest = d :: tl ∧ axisSpanChar d = false) :
    (num ++ rest).takeWhile axisSpanChar = num := by
  induction num with
  | nil =>
    rcases hrest with rfl | ⟨d, tl, rfl, hd⟩
    · rfl
    · simp [List.takeWhile_cons, hd]
  | cons c cs ih =>
    have hc := hnum c (by simp)
    simp only [List.cons_append, List.takeWhile_cons, hc, if_true]
    rw [ih (fun d hd => hnum d (by simp [hd]))]

theorem parseAxisValueAux_skip (u lo : Char) (pre tail : List Char)
    (hpre : ∀ d ∈ pre, d ≠ u ∧ d ≠ lo) :
    parseAxisValueAux u lo (pre ++ tail) = parseAxisValueAux u lo tail := by
  induction pre with
  | nil => rfl
  | cons d ps ih =>
    have hd := hpre d (by simp)
    have hb : (d == u || d == lo) = false := by
      simp [hd.1, hd.2]
    simp only [List.cons_append, parseAxisValueAux, hb, Bool.false_eq_true,
      if_false]
    exact ih (fun x hx => hpre x (by simp [hx]))

/-- Counterexample to C4 as stated: in `G1 Y1-2` the first `Y` is followed
by the valid signed decimal `1` and then a second `-`, which per the claim
ends the numeric span (so the claim predicts value 1); the code instead
includes every later `-`, `.` or digit in the span, fails to parse `1-2`,
and extracts no value at all. -/
theorem c4_second_dash_extracts_nothing :
    parse_axis_value "G1 Y1-2" 'Y' = none ∧ parseF64Chars ['1'] = some 1 := by
  decide

/-- C4 (amended): axis-value extraction finds the first occurrence of the
axis letter (case-insensitive) and takes as numeric span the maximal run of
characters that are decimal digits, `.` or `-` in any position; the span is
parsed with standard decimal rules, and the parsed value is returned exactly
when the whole span parses.  In particular, when the first occurrence of the
letter is followed by a valid signed decimal number whose end is a character
other than a digit, `-` or `.` (or the end of the line), the extracted value
equals that number. -/
theorem c4_axis_value_extraction :
    ∀ (pre num rest : List Char) (axis c : Char) (v : Q),
      (c = axis.toUpper ∨ c = axis.toLower) →
      (∀ d ∈ pre, d ≠ axis.toUpper ∧ d ≠ axis.toLower) →
      (∀ d ∈ num, axisSpanChar d = true) →
      (rest = [] ∨ ∃ d tl, rest = d :: tl ∧ axisSpanChar d = false) →
      parseF64Chars num = some v →
      parse_axis_value ⟨pre ++ c :: (num ++ rest)⟩ axis = some v := by
  intro pre num rest axis c v hc hpre hnum hrest hv
  show parseAxisValueAux axis.toUpper axis.toLower (pre ++ c :: (num ++ rest)) =
    some v
  rw [parseAxisValueAux_skip _ _ pre _ hpre]
  have hcb : (c == axis.toUpper || c == axis.toLower) = true := by
    rcases hc with rfl | rfl <;> simp
  simp only [parseAxisValueAux, hcb, if_true]
  rw [takeWhile_span num rest hnum hrest,
    trimChars_eq_self num (fun d hd => spanChar_not_ws d (hnum d hd)), hv]

/-- Witness for C4's amended theorem: `G1 Y10.5 F300` decomposes as prefix
`G1 `, letter `Y`, span `10.5` and remainder ` F300`, and extraction gives
exactly 10.5 (= 21/2). -/
theorem c4_axis_value_witness :
    parse_axis_value ⟨"G1 ".data ++ 'Y' :: ("10.5".data ++ " F300".data)⟩ 'Y' =
      some ⟨21, 2⟩ :=
  c4_axis_value_extraction "G1 ".data "10.5".data " F300".data 'Y' 'Y' ⟨21, 2⟩
    (Or.inl (by decide)) (by decide) (by decide)
    (Or.inr ⟨' ', "F300".data, by decide, by decide⟩) (by decide)

theorem translateStep_compliant_out (config : MotionConfig) (st : TranslateState)
    (l : String) (h : lineCompliant config st l = true) :
    (translateStep config st l).2 = [trimStr l] := by
  simp only [lineCompliant] at h
  simp only [translateStep, trimStr]
  split at h
  next h0 => rw [if_pos h0]
  next h0 =>
    rw [if_neg h0]
    split at h
    next h1 => rw [if_pos h1]
    next h1 =>
      rw [if_neg h1]
      split at h
      next hy => rfl
      next y hy =>
        have hle := of_decide_eq_true h
        rw [if_pos hle]

theorem translateGo_map_trim (config : MotionConfig) :
    ∀ (ls : List String) (st : TranslateState),
      compliantFrom config st ls = true →
      translateGo config st ls = ls.map trimStr := by
  intro ls
  induction ls with
  | nil => intro st _; rfl
  | cons l t ih =>
    intro st h
    rw [compliantFrom, Bool.and_eq_true] at h
    simp only [translateGo, List.map]
    rw [translateStep_compliant_out config st l h.1, ih _ h.2]
    rfl

/-- C5: `translate_lines` is the identity up to trimming on already-compliant
input: when no move line's Y target (absolute Y in G90 mode, accumulated
current Y plus Y in G91 mode) exceeds `gantry_y_limit_mm`, the output equals
the input with every line trimmed. -/
theorem c5_translate_identity_on_compliant :
    ∀ (lines : List String) (config : MotionConfig),
      compliantFrom config { absolute := true, current_y_mm := 0 } lines = true →
      translate_lines lines config = lines.map trimStr :=
  fun lines config h => translateGo_map_trim config lines _ h

/-- Witness for C5 on a concrete compliant program. -/
theorem c5_translate_identity_witness :
    compliantFrom MotionConfig.default { absolute := true, current_y_mm := 0 }
      ["G90", "G1 Y100 F300", "M3 S1000"] = true ∧
    translate_lines ["G90", "G1 Y100 F300", "M3 S1000"] MotionConfig.default =
      ["G90", "G1 Y100 F300", "M3 S1000"] := by
  have h : compliantFrom MotionConfig.default { absolute := true, current_y_mm := 0 }
      ["G90", "G1 Y100 F300", "M3 S1000"] = true := by decide
  exact ⟨h,
    (c5_translate_identity_on_compliant _ MotionConfig.default h).trans (by decide)⟩

end GrblRs
